import Mathlib

/-!
# Verification of the shenzhen-go visual-editor core

Shallow embedding of the client-side graph editor of this repository:

* the connection validator `Pin.checkConnectionTo` (dev/cmd/shenzhen-go/main.go,
  view part, lines 154-189),
* the optimistic mutation operations `Pin.connectTo`, `Pin.disconnect`,
  `Pin.reallyConnect`, `Pin.reallyDisconnect` (same file, lines 191-259),
* the drag lifecycle `Pin.dragStart`, `Pin.drag`, `Pin.drop`
  (same file, lines 282-374), together with the error-label placement
  `setError` and the snap threshold `snapQuad` (view/svg/main.go and
  src/unnamed/part_000),
* the controller operations `graphController.CreateNode` and
  `graphController.SaveProperties` (dev/client/controller/graph.go).

Modelling conventions:

* Go pointers are replaced by arena-style storage: channels live in a
  name-keyed association list inside `GraphS`, a pin's `ch` field becomes a
  name-valued entry in `GraphS.attach` (absent entry = nil pointer), and a
  channel's `Pins` map becomes the duplicate-free list `ChannelS.pins`.
* Immutable pin attributes (`Type`, `input`, owning node) are carried by an
  environment `Env` of total functions: in Go every pin object always has
  these fields.
* Asynchronous remote calls and user-visible error messages are modelled as
  an emitted list of `Action`s; the functions return the mutated state
  together with the actions, in program order.
* DOM-only statements (colours, line endpoints, show/hide of decoration)
  have no observable effect on the graph or the remote authority and are
  not modelled; each omission is noted next to the definition.
* float64 coordinates are modelled as `Rat` (exact field arithmetic).
-/

namespace SzGo

/-- Identity of a pin: the owning node's name and the pin's name
(pin names are unique within a node, node names within the graph). -/
structure PinId where
  node : String
  name : String
deriving DecidableEq, Repr

/-- Immutable attributes of pins, as total functions of the pin identity
(mirrors the `Type` and `input` fields every Go `Pin` object carries). -/
structure Env where
  ty : PinId → String
  input : PinId → Bool

/-- State of one channel: mirrors the Go `Channel` object: its model name
and type (`channel.Name`, `channel.Type`), its attached-pin set `Pins`
(a map with `struct{}` values, i.e. a set, modelled as a duplicate-free
list), and the `created` flag marking a locally provisional channel. -/
structure ChannelS where
  name : String
  ty : String
  pins : List PinId
  created : Bool
deriving DecidableEq, Repr

/-- Mutable editor state: `graph.Channels` (name-keyed) and every pin's
`ch` attachment pointer (absent = nil). -/
structure GraphS where
  channels : List ChannelS
  attach : List (PinId × String)
deriving DecidableEq, Repr

/-- Observable effects emitted by the operations: the three remote calls
the view issues and the error-label commands. Coordinates are the raw
`x, y` arguments handed to `setError`. -/
inductive Action where
  | remoteConnect (graph node pin channel : String)
  | remoteDisconnect (graph node pin : String)
  | showError (msg : String) (x y : Rat)
  | clearError
deriving DecidableEq, Repr

/-- Target of a drag, mirroring the Go `Point` interface value returned by
`nearestPoint`: either a pin or a channel (identified by its unique name).
The third Go implementor `ephemeral` is only used as a reposition argument,
never as a snap target (spec §4.2: the connectable points are the pins and
the channels). -/
inductive Target where
  | pin (q : PinId)
  | chan (cn : String)
deriving DecidableEq, Repr

/-- Lookup of `graph.Channels[cn]`. -/
def lookupChannel (cs : List ChannelS) (cn : String) : Option ChannelS :=
  cs.find? (fun c => decide (c.name = cn))

/-- Map update `graph.Channels[c.name] = c` (replace when present,
otherwise insert). -/
def setChannel (cs : List ChannelS) (c : ChannelS) : List ChannelS :=
  if cs.any (fun d => decide (d.name = c.name)) then
    cs.map (fun d => if d.name = c.name then c else d)
  else cs ++ [c]

/-- Map removal `delete(graph.Channels, cn)`. -/
def removeChannel (cs : List ChannelS) (cn : String) : List ChannelS :=
  cs.filter (fun c => decide (c.name ≠ cn))

/-- Reading a pin's `ch` pointer (none = nil). -/
def lookupAttach (a : List (PinId × String)) (p : PinId) : Option String :=
  (a.find? (fun e => decide (e.1 = p))).map (fun e => e.2)

/-- Setting a pin's `ch` pointer to a channel. -/
def setAttach (a : List (PinId × String)) (p : PinId) (cn : String) :
    List (PinId × String) :=
  (p, cn) :: a.filter (fun e => decide (e.1 ≠ p))

/-- Setting a pin's `ch` pointer to nil. -/
def removeAttach (a : List (PinId × String)) (p : PinId) :
    List (PinId × String) :=
  a.filter (fun e => decide (e.1 ≠ p))

/-- Clearing the `ch` pointer of every pin in `ps` (the
`for q := range p.ch.Pins { q.ch = nil }` loop of `Pin.disconnect`). -/
def removeAttachList (a : List (PinId × String)) (ps : List PinId) :
    List (PinId × String) :=
  ps.foldl removeAttach a

/-- Set-removal `delete(ch.Pins, p)` on the pin set of a channel. -/
def removePin (pins : List PinId) (p : PinId) : List PinId :=
  pins.filter (fun r => decide (r ≠ p))

/-- Set-insertion `ch.Pins[p] = struct\x7b\x7d` on the pin set of a channel. -/
def insertPin (pins : List PinId) (p : PinId) : List PinId :=
  if p ∈ pins then pins else pins ++ [p]

/-- Channel arm of `Pin.checkConnectionTo` (main.go lines 173-187): type
check against the channel's type, then the loop computing `same` (true iff
every attached pin has the dragged pin's direction). -/
def checkConnectionToChannel (env : Env) (p : PinId) (c : ChannelS) :
    Option String :=
  if c.ty ≠ env.ty p then
    some ("mismatching types [" ++ env.ty p ++ " != " ++ c.ty ++ "]")
  else if c.pins.all (fun r => env.input r == env.input p) then
    some "must connect at least one input and one output"
  else none

/-- Embedding of `Pin.checkConnectionTo` (main.go lines 154-189).
The pin arm checks the types, then re-runs the check against the target's
channel when the target pin is attached (`p.checkConnectionTo(q.ch)`),
otherwise checks direction and owning node. The channel arm is
`checkConnectionToChannel`. A dangling attachment name (impossible in Go,
where `q.ch` is a live pointer) falls through to the channel arm's
behaviour on a missing channel, returning nil. -/
def checkConnectionTo (env : Env) (g : GraphS) (p : PinId) :
    Target → Option String
  | Target.pin q =>
    if env.ty q ≠ env.ty p then
      some ("mismatching types [" ++ env.ty p ++ " != " ++ env.ty q ++ "]")
    else
      match lookupAttach g.attach q with
      | some cn =>
        match lookupChannel g.channels cn with
        | some c => checkConnectionToChannel env p c
        | none => none
      | none =>
        if env.input p == env.input q then
          some "both pins have the same direction"
        else if p.node = q.node then
          some "both pins are on the same goroutine"
        else none
  | Target.chan cn =>
    match lookupChannel g.channels cn with
    | some c => checkConnectionToChannel env p c
    | none => none

/-- Snap threshold `snapQuad` (view/svg/main.go line 34): the maximum
squared distance at which a drag target is reachable. -/
def snapQuad : Rat := 144

/-- State of the single shared error label `errLabel` (position of its
group, its text, and visibility). -/
structure ErrLabel where
  text : String
  x : Rat
  y : Rat
  visible : Bool
deriving DecidableEq, Repr

/-- Embedding of `setError` (src/unnamed/part_000 lines 92-101, identical
to the `diagram.setError` method of view/svg/main.go): an empty message
clears the label, otherwise the label moves to `(x+4, y-36)`, takes the
message as its text and becomes visible. -/
def setErrorLabel (l : ErrLabel) (msg : String) (x y : Rat) : ErrLabel :=
  if msg = "" then { l with visible := false }
  else { text := msg, x := x + 4, y := y - 36, visible := true }

/-- Replay of the error-label `Action`s of an operation onto the label
state (remote-call actions do not touch the label). -/
def applyErrAction (l : ErrLabel) : Action → ErrLabel
  | Action.showError msg x y => setErrorLabel l msg x y
  | Action.clearError => { l with visible := false }
  | _ => l

/-- Embedding of `Pin.disconnect` (main.go lines 233-249). When the pin is
attached: fire the asynchronous `reallyDisconnect` (emitted as a
`remoteDisconnect` action), remove the pin from the channel's pin set
(`setColour`/`reposition` are DOM-only), and when fewer than 2 pins remain
clear the remaining pins' attachments and delete the channel from
`graph.Channels`; finally clear the pin's own attachment. The inner
`none` channel arm is unreachable in Go, where an attached pin's `ch`
field is a live pointer. -/
def disconnect (gid : String) (g : GraphS) (p : PinId) :
    GraphS × List Action :=
  match lookupAttach g.attach p with
  | none => (g, [])
  | some cn =>
    let acts := [Action.remoteDisconnect gid p.node p.name]
    match lookupChannel g.channels cn with
    | none => ({ g with attach := removeAttach g.attach p }, acts)
    | some c =>
      let pins1 := removePin c.pins p
      if pins1.length < 2 then
        ({ channels := removeChannel g.channels cn,
           attach := removeAttach (removeAttachList g.attach pins1) p },
         acts)
      else
        ({ channels := setChannel g.channels { c with pins := pins1 },
           attach := removeAttach g.attach p }, acts)

/-- Embedding of `Pin.reallyConnect` (main.go lines 221-231) together with
its response handling: the `ConnectPin` request carries the graph file
path, the node and name of `p` itself, and the name of the channel `p` is
attached to; on a failed response `setError("Couldn't connect: "+err, 0, 0)`
runs, with hard-coded coordinates `(0, 0)`. The state is returned
untouched: no local mutation is reverted. The `none` arm is unreachable
from `Pin.drop`, which calls `reallyConnect` only while `p.ch != nil`. -/
def reallyConnect (gid : String) (g : GraphS) (p : PinId)
    (remote : Except String Unit) : GraphS × List Action :=
  match lookupAttach g.attach p with
  | none => (g, [])
  | some cn =>
    let req := Action.remoteConnect gid p.node p.name cn
    match remote with
    | Except.ok _ => (g, [req])
    | Except.error e =>
      (g, [req, Action.showError ("Couldn't connect: " ++ e) 0 0])

/-- Embedding of `Pin.reallyDisconnect` (main.go lines 251-259) response
handling: a failed `DisconnectPin` reply runs
`setError("Couldn't disconnect: "+err, 0, 0)`, again with hard-coded
coordinates, and changes no state. -/
def reallyDisconnectResponse (remote : Except String Unit) : List Action :=
  match remote with
  | Except.ok _ => []
  | Except.error e =>
    [Action.showError ("Couldn't disconnect: " ++ e) 0 0]

/-- Channel arm of `Pin.connectTo` (main.go lines 209-217): disconnect
first when attached to a different channel, then set the pin's attachment
and add it to the channel's pin set (`reposition` is DOM-only). The
dangling-name arm is unreachable in Go (a live `*Channel` is passed). -/
def connectToChannel (gid : String) (g : GraphS) (p : PinId) (cn : String) :
    GraphS × List Action :=
  let step1 :=
    match lookupAttach g.attach p with
    | some pcn => if pcn ≠ cn then disconnect gid g p else (g, [])
    | none => (g, [])
  let g1 := step1.1
  match lookupChannel g1.channels cn with
  | some c =>
    ({ channels := setChannel g1.channels { c with pins := insertPin c.pins p },
       attach := setAttach g1.attach p cn }, step1.2)
  | none => (g1, step1.2)

/-- Embedding of `Pin.connectTo` (main.go lines 191-219). The pin arm
disconnects `p` from a different previous channel, then either delegates
to the target's channel, or builds a fresh two-pin channel.
`createChannel` is view code not under src/; modelled from the spec:
Channels are created the instant two compatible free pins are validated as
connectable, carrying the common pin type, the two pins, and the transient
`created` (provisional) flag; its invented name is passed in as `fresh`.
`q.l.Show()` is DOM-only. -/
def connectTo (gid fresh : String) (env : Env) (g : GraphS) (p : PinId) :
    Target → GraphS × List Action
  | Target.pin qp =>
    let step1 :=
      match lookupAttach g.attach p with
      | some pcn =>
        if lookupAttach g.attach qp ≠ some pcn then disconnect gid g p
        else (g, [])
      | none => (g, [])
    let g1 := step1.1
    match lookupAttach g1.attach qp with
    | some qcn =>
      let r := connectToChannel gid g1 p qcn
      (r.1, step1.2 ++ r.2)
    | none =>
      let c : ChannelS :=
        { name := fresh, ty := env.ty p, pins := [p, qp], created := true }
      ({ channels := setChannel g1.channels c,
         attach := setAttach (setAttach g1.attach p fresh) qp fresh },
       step1.2)
  | Target.chan cn => connectToChannel gid g p cn

/-- Outcome of `Pin.dragStart`: which handler ends up owning the drag.
With `self` the pin itself becomes `dragItem`; `toChannel` transfers
control to `ch.dragStart` (the Channel's own drag handler, view code not
under src/); `toPin q` is the recursive `q.dragStart(e)` call on the sole
remaining endpoint, which (being freshly detached, `q.ch = nil`) makes `q`
the `dragItem`. -/
inductive Handoff where
  | self
  | toChannel (cn : String)
  | toPin (q : PinId)
deriving DecidableEq, Repr

/-- Embedding of `Pin.dragStart` (main.go lines 282-309). An attached pin
is first disconnected (capturing the channel object `ch` beforehand);
afterwards, when the captured channel still holds more than one pin the
drag is handed to the channel's handler, otherwise to the single remaining
endpoint (the `for q := range ch.Pins` loop on a map with at most one
key); with no remaining pin, and for a free pin, the pin itself becomes
the drag item. All `SetAttribute`/`Show`/`Hide` calls are DOM-only. -/
def dragStart (gid : String) (g : GraphS) (p : PinId) :
    GraphS × Handoff × List Action :=
  match lookupAttach g.attach p with
  | none => (g, Handoff.self, [])
  | some cn =>
    match lookupChannel g.channels cn with
    | none =>
      let r := disconnect gid g p
      (r.1, Handoff.self, r.2)
    | some c =>
      let r := disconnect gid g p
      let remaining := removePin c.pins p
      if remaining.length > 1 then (r.1, Handoff.toChannel cn, r.2)
      else
        match remaining with
        | q :: _ => (r.1, Handoff.toPin q, r.2)
        | [] => (r.1, Handoff.self, r.2)

/-- Embedding of the `noSnap` closure of `Pin.drag` (main.go lines
319-328): when the pin is attached, `setColour` (DOM-only) and
`disconnect`; the remaining statements are DOM-only. -/
def noSnap (gid : String) (g : GraphS) (p : PinId) : GraphS × List Action :=
  match lookupAttach g.attach p with
  | some _ => disconnect gid g p
  | none => (g, [])

/-- Embedding of `Pin.drag` (main.go lines 311-358). The nearest-point
query `d, q := graph.nearestPoint(x, y)` is view code not under src/;
its result is passed in as the parameters `d` and `q` (spec §4.2: the
closest connectable point and its squared distance). The three branches:
the origin-or-too-far branch (`p == q || d >= snapQuad`) clears the error
and runs `noSnap`; a validation failure shows the rejection at the cursor
and runs `noSnap`; approval runs `connectTo` (with `fresh` the invented
name of a newly created channel) and clears the error. Snap-position
arithmetic and colours are DOM-only. -/
def drag (gid fresh : String) (env : Env) (g : GraphS) (p : PinId)
    (x y d : Rat) (q : Target) : GraphS × List Action :=
  if q = Target.pin p ∨ d ≥ snapQuad then
    let r := noSnap gid g p
    (r.1, Action.clearError :: r.2)
  else
    match checkConnectionTo env g p q with
    | some e =>
      let r := noSnap gid g p
      (r.1, Action.showError ("Can't connect: " ++ e) x y :: r.2)
    | none =>
      let r := connectTo gid fresh env g p q
      (r.1, r.2 ++ [Action.clearError])

/-- Embedding of `Pin.drop` (main.go lines 360-374): clear the error
label; with no attachment fire the asynchronous disconnect; with an
attached channel whose `created` flag is set fire the asynchronous
connect (`reallyConnect` reads the pin's own node and name and the
channel's name). `ch.commit` is layout code outside src/ issuing no remote
call (spec §4.4 lists only the connect-request at drop); the remaining
statements are DOM-only. The dangling-name arm is unreachable in Go. -/
def drop (gid : String) (g : GraphS) (p : PinId) : GraphS × List Action :=
  match lookupAttach g.attach p with
  | none =>
    (g, [Action.clearError, Action.remoteDisconnect gid p.node p.name])
  | some cn =>
    match lookupChannel g.channels cn with
    | some c =>
      if c.created then
        (g, [Action.clearError, Action.remoteConnect gid p.node p.name cn])
      else (g, [Action.clearError])
    | none => (g, [Action.clearError])

/-- Connect-requests among a list of emitted actions. -/
def connectRequests (acts : List Action) : List Action :=
  acts.filter (fun a =>
    match a with
    | Action.remoteConnect _ _ _ _ => true
    | _ => false)

/-- Disconnect-notifications among a list of emitted actions. -/
def disconnectRequests (acts : List Action) : List Action :=
  acts.filter (fun a =>
    match a with
    | Action.remoteDisconnect _ _ _ => true
    | _ => false)

/-- Subset of `model.Node` built by `graphController.CreateNode`
(dev/client/controller/graph.go lines 85-94): name, the `Enabled`,
`Wait` and `Multiplicity` flags, the initial position, and the part-type
tag standing in for the opaque `Part` instance. -/
structure NodeModel where
  name : String
  enabled : Bool
  wait : Bool
  multiplicity : Nat
  x : Rat
  y : Rat
  partType : String
deriving DecidableEq, Repr

/-- Name-invention loop of `graphController.CreateNode` (graph.go lines
71-78): starting from the bare part-type name, and then
`partType + " " + strconv.Itoa(i)` for `i = 2, 3, ...`, return the first
candidate that is not a key of `graph.Nodes`. Go's `for i := 2; ; i++` is
unbounded; the embedding carries explicit fuel, with `strconv.Itoa`
rendered by `Nat.repr` (both produce the decimal numeral). -/
def inventNameAux (nodes : List String) (partType : String) :
    Nat → Nat → String → String
  | 0, _, name => name
  | fuel + 1, i, name =>
    if name ∈ nodes then
      inventNameAux nodes partType fuel (i + 1) (partType ++ " " ++ Nat.repr i)
    else name

/-- Entry point of the name-invention loop. `nodes.length + 1` fuel checks
`nodes.length + 1` pairwise distinct candidates, so the loop provably
stops at a fresh candidate before the fuel runs out
(`inventName_not_mem`). -/
def inventName (nodes : List String) (partType : String) : String :=
  inventNameAux nodes partType (nodes.length + 1) 2 partType

/-- Embedding of `graphController.CreateNode` (graph.go lines 69-111).
Inputs beyond the local node-name list and the part type are the results
of the two fallible collaborators: `model.MarshalPart` (external model
package) and the remote `CreateNode` RPC. The local node mapping is
returned unchanged on every path: the method never inserts the new node
locally. A marshalling failure returns `"marshalling part: " + err`
before the remote call; a remote failure returns the error; on success
the node with `Enabled = true`, `Wait = true`, `Multiplicity = 1` and
position `(150, 150)` is returned. -/
def createNode (nodes : List String) (partType : String)
    (marshal : Except String Unit) (remote : Except String Unit) :
    List String × Except String NodeModel :=
  let name := inventName nodes partType
  match marshal with
  | Except.error e => (nodes, Except.error ("marshalling part: " ++ e))
  | Except.ok _ =>
    let n : NodeModel :=
      { name := name, enabled := true, wait := true, multiplicity := 1,
        x := 150, y := 150, partType := partType }
    match remote with
    | Except.error e => (nodes, Except.error e)
    | Except.ok _ => (nodes, Except.ok n)

/-- Specification-side candidate sequence of the name-invention loop,
as seen from a state with current name `name` and counter `i`: candidate
`0` is the current name, candidate `k+1` is `partType ++ " " ++ repr (i+k)`.
Used only to reason about `inventNameAux`. -/
def candAt (name pt : String) (i : Nat) : Nat → String
  | 0 => name
  | k + 1 => pt ++ " " ++ Nat.repr (i + k)

/-- Graph-properties fields touched by `graphController.SaveProperties`
(`model.Graph.Name`, `.PackagePath`, `.IsCommand`). -/
structure GraphProps where
  name : String
  packagePath : String
  isCommand : Bool
deriving DecidableEq, Repr

/-- Embedding of `graphController.SaveProperties` (graph.go lines
118-132): the request is built from the three panel inputs; on a remote
error the error is returned and the local graph is untouched; on success
the three local fields are overwritten with the request values and no
error is returned. -/
def saveProperties (g : GraphProps) (nameInput pkgInput : String)
    (isCmdInput : Bool) (remote : Except String Unit) :
    GraphProps × Option String :=
  match remote with
  | Except.error e => (g, some e)
  | Except.ok _ =>
    ({ name := nameInput, packagePath := pkgInput, isCommand := isCmdInput },
     none)

/-!
## Concrete fixtures

Small concrete states used by witnesses and counterexamples.
-/

/-- Output pin `p` on node `N`. -/
def pinP : PinId := { node := "N", name := "p" }

/-- Input pin `q` on the same node `N`. -/
def pinQ : PinId := { node := "N", name := "q" }

/-- Output pin `r` on a different node `M`. -/
def pinR : PinId := { node := "M", name := "r" }

/-- Input pin `c` on a third node `K`. -/
def pinC : PinId := { node := "K", name := "c" }

/-- Output pin `A` on node `Gen` (the spec §8 scenario). -/
def pinGenA : PinId := { node := "Gen", name := "A" }

/-- Input pin `B` on node `Sum` (the spec §8 scenario). -/
def pinSumB : PinId := { node := "Sum", name := "B" }

/-- Environment in which every pin has type `int` and exactly the pins
named `q`, `B` and `c` are inputs. -/
def envQIn : Env :=
  { ty := fun _ => "int",
    input := fun x => decide (x.name = "q" ∨ x.name = "B" ∨ x.name = "c") }

/-- Environment in which every pin has type `int` and every pin is an
input. -/
def envAllIn : Env := { ty := fun _ => "int", input := fun _ => true }

/-- Environment with type `int` on node `Gen` and type `string`
elsewhere; every pin an output. -/
def envMixedTy : Env :=
  { ty := fun x => if x.node = "Gen" then "int" else "string",
    input := fun _ => false }

/-- Empty graph state. -/
def gEmpty : GraphS := { channels := [], attach := [] }

/-- Graph with a committed two-pin channel `ch0` joining `q` (on `N`)
with `r` (on `M`). -/
def gQChan : GraphS :=
  { channels := [{ name := "ch0", ty := "int", pins := [pinQ, pinR],
                   created := false }],
    attach := [(pinQ, "ch0"), (pinR, "ch0")] }

/-- Graph with a provisional (`created`) channel `ch0` joining `A` (on
`Gen`) with `B` (on `Sum`), the state after the spec §8 drag. -/
def gCreated : GraphS :=
  { channels := [{ name := "ch0", ty := "int", pins := [pinGenA, pinSumB],
                   created := true }],
    attach := [(pinGenA, "ch0"), (pinSumB, "ch0")] }

/-- Graph with a committed two-pin channel `ch0` joining `p` with `r`. -/
def gPair : GraphS :=
  { channels := [{ name := "ch0", ty := "int", pins := [pinP, pinR],
                   created := false }],
    attach := [(pinP, "ch0"), (pinR, "ch0")] }

/-- Graph with a committed three-pin channel `ch0` joining `p`, `r` and
`c`. -/
def gTriple : GraphS :=
  { channels := [{ name := "ch0", ty := "int", pins := [pinP, pinR, pinC],
                   created := false }],
    attach := [(pinP, "ch0"), (pinR, "ch0"), (pinC, "ch0")] }

/-- Graph holding one channel `c1` of type `bool` with no attached pins. -/
def gBoolChan : GraphS :=
  { channels := [{ name := "c1", ty := "bool", pins := [], created := false }],
    attach := [] }

/-- Replay of a whole action list onto the error label. -/
def replayErr (l : ErrLabel) (acts : List Action) : ErrLabel :=
  acts.foldl applyErrAction l

/-- Hidden error label in its initial state. -/
def errLabel0 : ErrLabel := { text := "", x := 0, y := 0, visible := false }

/-!
## Decimal-numeral facts

`strconv.Itoa` is rendered by `Nat.repr`. The name-invention loop of
`CreateNode` terminates at a fresh name because the decimal numerals are
pairwise distinct; the lemmas below establish the injectivity of
`Nat.repr` from the recursion of `Nat.toDigitsCore`.
-/

theorem toDigitsCore_append (b : Nat) :
    ∀ (f n : Nat) (ds : List Char),
      Nat.toDigitsCore b f n ds = Nat.toDigitsCore b f n [] ++ ds := by
  intro f
  induction f with
  | zero => intro n ds; simp [Nat.toDigitsCore]
  | succ f ih =>
    intro n ds
    simp only [Nat.toDigitsCore]
    by_cases h : n / b = 0
    · simp [h]
    · simp only [h, if_false]
      rw [ih (n / b) (Nat.digitChar (n % b) :: ds),
        ih (n / b) [Nat.digitChar (n % b)]]
      simp

theorem toDigitsCore_fuel (b : Nat) (hb : 2 ≤ b) :
    ∀ (n f f' : Nat), n < f → n < f' →
      Nat.toDigitsCore b f n [] = Nat.toDigitsCore b f' n [] := by
  intro n
  induction n using Nat.strong_induction_on with
  | _ n ih =>
    intro f f' hf hf'
    match f, f' with
    | f + 1, f' + 1 =>
      simp only [Nat.toDigitsCore]
      by_cases h : n / b = 0
      · simp [h]
      · simp only [h, if_false]
        have hn : n ≠ 0 := by
          intro h0
          exact h (by simp [h0])
        have hdiv : n / b < n := Nat.div_lt_self (Nat.pos_of_ne_zero hn) hb
        rw [toDigitsCore_append b f, toDigitsCore_append b f',
          ih (n / b) hdiv f f' (by omega) (by omega)]

theorem toDigits_ten_small (n : Nat) (h : n < 10) :
    Nat.toDigits 10 n = [Nat.digitChar n] := by
  unfold Nat.toDigits
  simp only [Nat.toDigitsCore]
  have h0 : n / 10 = 0 := Nat.div_eq_of_lt h
  simp [h0, Nat.mod_eq_of_lt h]

theorem toDigitsCore_succ (b f n : Nat) :
    Nat.toDigitsCore b (f + 1) n [] =
      if n / b = 0 then [Nat.digitChar (n % b)]
      else Nat.toDigitsCore b f (n / b) [Nat.digitChar (n % b)] := by
  simp only [Nat.toDigitsCore]

theorem toDigits_ten_decomp (n : Nat) (h : 10 ≤ n) :
    Nat.toDigits 10 n =
      Nat.toDigits 10 (n / 10) ++ [Nat.digitChar (n % 10)] := by
  have h0 : n / 10 ≠ 0 := by
    have : 1 ≤ n / 10 := (Nat.le_div_iff_mul_le (by omega)).mpr (by omega)
    omega
  show Nat.toDigitsCore 10 (n + 1) n [] =
    Nat.toDigitsCore 10 (n / 10 + 1) (n / 10) [] ++ [Nat.digitChar (n % 10)]
  rw [toDigitsCore_succ 10 n n]
  simp only [h0, if_false]
  rw [toDigitsCore_append 10 n (n / 10),
    toDigitsCore_fuel 10 (by omega) (n / 10) n (n / 10 + 1)
      (Nat.div_lt_self (by omega) (by omega)) (by omega)]

theorem toDigits_ten_ne_nil (n : Nat) : Nat.toDigits 10 n ≠ [] := by
  by_cases h : n < 10
  · rw [toDigits_ten_small n h]; simp
  · rw [toDigits_ten_decomp n (by omega)]; simp

theorem digitChar_inj_lt_ten :
    ∀ a < 10, ∀ b < 10, Nat.digitChar a = Nat.digitChar b → a = b := by
  decide

theorem toDigits_ten_inj :
    ∀ m n : Nat, Nat.toDigits 10 m = Nat.toDigits 10 n → m = n := by
  intro m
  induction m using Nat.strong_induction_on with
  | _ m ih =>
    intro n h
    by_cases hm : m < 10 <;> by_cases hn : n < 10
    · rw [toDigits_ten_small m hm, toDigits_ten_small n hn] at h
      exact digitChar_inj_lt_ten m hm n hn (by simpa using h)
    · rw [toDigits_ten_small m hm, toDigits_ten_decomp n (by omega)] at h
      have hlen := congrArg List.length h
      simp at hlen
      exact absurd hlen (toDigits_ten_ne_nil _)
    · rw [toDigits_ten_decomp m (by omega), toDigits_ten_small n hn] at h
      have hlen := congrArg List.length h
      simp at hlen
      exact absurd hlen (toDigits_ten_ne_nil _)
    · rw [toDigits_ten_decomp m (by omega),
        toDigits_ten_decomp n (by omega)] at h
      obtain ⟨h3, h4⟩ := List.append_inj' h (by simp)
      have hmod : m % 10 = n % 10 :=
        digitChar_inj_lt_ten (m % 10) (Nat.mod_lt _ (by omega)) (n % 10)
          (Nat.mod_lt _ (by omega)) (by simpa using h4)
      have hdiv : m / 10 = n / 10 :=
        ih (m / 10) (Nat.div_lt_self (by omega) (by omega)) (n / 10) h3
      omega

theorem natRepr_inj (m n : Nat) (h : Nat.repr m = Nat.repr n) : m = n := by
  apply toDigits_ten_inj
  have hd := congrArg String.data h
  simp only [Nat.repr, List.asString] at hd
  exact hd

theorem natRepr_length_pos (n : Nat) : 0 < (Nat.repr n).length := by
  show 0 < (Nat.toDigits 10 n).asString.length
  have := toDigits_ten_ne_nil n
  cases hE : Nat.toDigits 10 n with
  | nil => exact absurd hE this
  | cons c cs => simp [hE, List.asString, String.length]

theorem string_append_left_cancel (s a b : String) (h : s ++ a = s ++ b) :
    a = b := by
  apply String.ext
  have hd := congrArg String.data h
  simp only [String.data_append] at hd
  exact List.append_cancel_left hd

/-!
## Facts about the name-invention loop of CreateNode
-/

theorem candAt_shift (name pt : String) (i k : Nat) :
    candAt (pt ++ " " ++ Nat.repr i) pt (i + 1) k = candAt name pt i (k + 1) := by
  cases k with
  | zero => simp [candAt]
  | succ k =>
    simp only [candAt]
    have harg : i + 1 + k = i + (k + 1) := by omega
    rw [harg]

theorem inventNameAux_spec (nodes : List String) (pt : String) :
    ∀ (fuel i : Nat) (name : String),
      (∃ k, k < fuel ∧ candAt name pt i k ∉ nodes) →
      inventNameAux nodes pt fuel i name ∉ nodes ∧
        ∃ k, k < fuel ∧ inventNameAux nodes pt fuel i name = candAt name pt i k := by
  intro fuel
  induction fuel with
  | zero =>
    intro i name h
    obtain ⟨k, hk, _⟩ := h
    omega
  | succ fuel ih =>
    intro i name h
    by_cases hmem : name ∈ nodes
    · simp only [inventNameAux, hmem, if_true]
      obtain ⟨k, hk, hfresh⟩ := h
      match k with
      | 0 => exact absurd hmem (by simpa [candAt] using hfresh)
      | k + 1 =>
        rw [← candAt_shift name pt i k] at hfresh
        obtain ⟨ih1, k', hk', ih2⟩ :=
          ih (i + 1) (pt ++ " " ++ Nat.repr i) ⟨k, by omega, hfresh⟩
        refine ⟨ih1, k' + 1, by omega, ?_⟩
        rw [ih2, candAt_shift name]
    · have hres : inventNameAux nodes pt (fuel + 1) i name = name := by
        simp only [inventNameAux]
        rw [if_neg hmem]
      rw [hres]
      exact ⟨hmem, 0, by omega, rfl⟩

theorem candAt_base_inj (pt : String) : Function.Injective (candAt pt pt 2) := by
  intro a b hab
  match a, b with
  | 0, 0 => rfl
  | 0, b + 1 =>
    exfalso
    have hlen := congrArg String.length hab
    simp only [candAt, String.length_append] at hlen
    have := natRepr_length_pos (2 + b)
    have hsp : (" " : String).length = 1 := by decide
    omega
  | a + 1, 0 =>
    exfalso
    have hlen := congrArg String.length hab
    simp only [candAt, String.length_append] at hlen
    have := natRepr_length_pos (2 + a)
    have hsp : (" " : String).length = 1 := by decide
    omega
  | a + 1, b + 1 =>
    simp only [candAt, String.append_assoc] at hab
    have hr : Nat.repr (2 + a) = Nat.repr (2 + b) :=
      string_append_left_cancel (pt ++ " ") _ _ (by
        simpa [String.append_assoc] using hab)
    have := natRepr_inj (2 + a) (2 + b) hr
    omega

theorem exists_fresh_candidate (nodes : List String) (pt : String) :
    ∃ k, k < nodes.length + 1 ∧ candAt pt pt 2 k ∉ nodes := by
  by_contra hcon
  push_neg at hcon
  have hsub : ((List.range (nodes.length + 1)).map (candAt pt pt 2)) ⊆ nodes := by
    intro s hs
    simp only [List.mem_map, List.mem_range] at hs
    obtain ⟨k, hk, rfl⟩ := hs
    exact hcon k hk
  have hnodup : ((List.range (nodes.length + 1)).map (candAt pt pt 2)).Nodup :=
    (List.nodup_range _).map (candAt_base_inj pt)
  have h1 := List.toFinset_card_of_nodup hnodup
  have h2 : ((List.range (nodes.length + 1)).map (candAt pt pt 2)).toFinset ⊆
      nodes.toFinset := by
    intro x hx
    exact List.mem_toFinset.mpr (hsub (List.mem_toFinset.mp hx))
  have h3 := Finset.card_le_card h2
  have h4 := List.toFinset_card_le nodes
  simp only [List.length_map, List.length_range] at h1
  omega

theorem inventName_spec (nodes : List String) (pt : String) :
    inventName nodes pt ∉ nodes ∧
      (inventName nodes pt = pt ∨
        ∃ i, 2 ≤ i ∧ inventName nodes pt = pt ++ " " ++ Nat.repr i) := by
  have hex : ∃ k, k < nodes.length + 1 ∧ candAt pt pt 2 k ∉ nodes :=
    exists_fresh_candidate nodes pt
  obtain ⟨hfresh, k, hk, heq⟩ :=
    inventNameAux_spec nodes pt (nodes.length + 1) 2 pt hex
  refine ⟨hfresh, ?_⟩
  match k, heq with
  | 0, heq => exact Or.inl (by simpa [candAt] using heq)
  | k + 1, heq =>
    exact Or.inr ⟨2 + k, by omega, by simpa [candAt] using heq⟩

/-!
## Behaviour of the association-list state helpers
-/

theorem lookupAttach_cons_pos (e : PinId × String)
    (rest : List (PinId × String)) (q : PinId) (h : e.1 = q) :
    lookupAttach (e :: rest) q = some e.2 := by
  unfold lookupAttach
  rw [List.find?_cons_of_pos _ (by simp [h])]
  rfl

theorem lookupAttach_cons_neg (e : PinId × String)
    (rest : List (PinId × String)) (q : PinId) (h : e.1 ≠ q) :
    lookupAttach (e :: rest) q = lookupAttach rest q := by
  unfold lookupAttach
  rw [List.find?_cons_of_neg _ (by simp [h])]

theorem lookupChannel_cons_pos (c : ChannelS) (rest : List ChannelS)
    (cn : String) (h : c.name = cn) :
    lookupChannel (c :: rest) cn = some c := by
  unfold lookupChannel
  rw [List.find?_cons_of_pos _ (by simp [h])]

theorem lookupChannel_cons_neg (c : ChannelS) (rest : List ChannelS)
    (cn : String) (h : c.name ≠ cn) :
    lookupChannel (c :: rest) cn = lookupChannel rest cn := by
  unfold lookupChannel
  rw [List.find?_cons_of_neg _ (by simp [h])]

theorem lookupAttach_removeAttach (a : List (PinId × String)) (p q : PinId) :
    lookupAttach (removeAttach a p) q =
      if q = p then none else lookupAttach a q := by
  induction a with
  | nil => simp [removeAttach, lookupAttach]
  | cons e rest ih =>
    by_cases hep : e.1 = p
    · have hfilter : removeAttach (e :: rest) p = removeAttach rest p := by
        simp [removeAttach, hep]
      rw [hfilter, ih]
      by_cases hqp : q = p
      · simp [hqp]
      · have heq : e.1 ≠ q := by
          rw [hep]
          exact fun hc => hqp hc.symm
        rw [if_neg hqp, if_neg hqp, lookupAttach_cons_neg e rest q heq]
    · have hfilter : removeAttach (e :: rest) p = e :: removeAttach rest p := by
        simp [removeAttach, hep]
      rw [hfilter]
      by_cases heq : e.1 = q
      · have hqp : q ≠ p := fun hc => hep (heq.trans hc)
        rw [lookupAttach_cons_pos e _ q heq, if_neg hqp,
          lookupAttach_cons_pos e rest q heq]
      · rw [lookupAttach_cons_neg e _ q heq, lookupAttach_cons_neg e rest q heq,
          ih]

theorem lookupAttach_removeAttachList_of_none (a : List (PinId × String))
    (ps : List PinId) (q : PinId) (h : lookupAttach a q = none) :
    lookupAttach (removeAttachList a ps) q = none := by
  induction ps generalizing a with
  | nil => exact h
  | cons r rest ih =>
    show lookupAttach (removeAttachList (removeAttach a r) rest) q = none
    apply ih
    rw [lookupAttach_removeAttach]
    by_cases hqr : q = r
    · simp [hqr]
    · simp [hqr, h]

theorem lookupAttach_removeAttachList_mem (a : List (PinId × String))
    (ps : List PinId) (q : PinId) (h : q ∈ ps) :
    lookupAttach (removeAttachList a ps) q = none := by
  induction ps generalizing a with
  | nil => cases h
  | cons r rest ih =>
    show lookupAttach (removeAttachList (removeAttach a r) rest) q = none
    rcases List.mem_cons.mp h with hqr | hmem
    · apply lookupAttach_removeAttachList_of_none
      rw [lookupAttach_removeAttach]
      simp [hqr]
    · exact ih _ hmem

theorem lookupChannel_removeChannel_self (cs : List ChannelS) (cn : String) :
    lookupChannel (removeChannel cs cn) cn = none := by
  induction cs with
  | nil => simp [removeChannel, lookupChannel]
  | cons c rest ih =>
    by_cases hc : c.name = cn
    · have hstep : removeChannel (c :: rest) cn = removeChannel rest cn := by
        simp [removeChannel, hc]
      rw [hstep]
      exact ih
    · have hstep : removeChannel (c :: rest) cn = c :: removeChannel rest cn := by
        simp [removeChannel, hc]
      rw [hstep, lookupChannel_cons_neg c _ cn hc]
      exact ih

theorem lookupChannel_map_replace (cs : List ChannelS) (c : ChannelS) :
    lookupChannel (cs.map (fun d => if d.name = c.name then c else d)) c.name =
      if cs.any (fun d => decide (d.name = c.name)) then some c else none := by
  induction cs with
  | nil => simp [lookupChannel]
  | cons d rest ih =>
    by_cases hd : d.name = c.name
    · simp only [List.map_cons, List.any_cons, if_pos hd]
      rw [lookupChannel_cons_pos c _ c.name rfl]
      simp [hd]
    · simp only [List.map_cons, List.any_cons, if_neg hd]
      rw [lookupChannel_cons_neg d _ c.name hd, ih]
      simp [hd]

theorem lookupChannel_append_single (cs : List ChannelS) (c : ChannelS)
    (h : cs.any (fun d => decide (d.name = c.name)) = false) :
    lookupChannel (cs ++ [c]) c.name = some c := by
  induction cs with
  | nil => exact lookupChannel_cons_pos c [] c.name rfl
  | cons d rest ih =>
    simp only [List.any_cons, Bool.or_eq_false_iff] at h
    have hd : d.name ≠ c.name := by
      intro hc
      simp [hc] at h
    rw [List.cons_append, lookupChannel_cons_neg d _ c.name hd]
    exact ih h.2

theorem lookupChannel_setChannel (cs : List ChannelS) (c : ChannelS) :
    lookupChannel (setChannel cs c) c.name = some c := by
  unfold setChannel
  by_cases hany : cs.any (fun d => decide (d.name = c.name)) = true
  · rw [if_pos hany, lookupChannel_map_replace, if_pos hany]
  · rw [if_neg hany]
    exact lookupChannel_append_single cs c (by
      exact Bool.eq_false_iff.mpr hany)

theorem lookupChannel_name_eq (cs : List ChannelS) (cn : String)
    (c : ChannelS) (h : lookupChannel cs cn = some c) : c.name = cn := by
  have := List.find?_some h
  simpa using this

theorem lookupAttach_name_eq (a : List (PinId × String)) (p : PinId)
    (e : PinId × String) (h : a.find? (fun e => decide (e.1 = p)) = some e) :
    e.1 = p := by
  have := List.find?_some h
  simpa using this

/-!
## Behaviour of disconnect
-/

theorem disconnect_detaches (gid : String) (g : GraphS) (p : PinId) :
    lookupAttach ((disconnect gid g p).1).attach p = none := by
  unfold disconnect
  cases hatt : lookupAttach g.attach p with
  | none => exact hatt
  | some cn =>
    cases hch : lookupChannel g.channels cn with
    | none =>
      simp only [hch]
      rw [lookupAttach_removeAttach]
      simp
    | some c =>
      simp only [hch]
      by_cases hlen : (removePin c.pins p).length < 2
      · simp only [if_pos hlen]
        rw [lookupAttach_removeAttach]
        simp
      · simp only [if_neg hlen]
        rw [lookupAttach_removeAttach]
        simp

theorem disconnect_actions_attached (gid : String) (g : GraphS) (p : PinId)
    (cn : String) (hatt : lookupAttach g.attach p = some cn) :
    (disconnect gid g p).2 = [Action.remoteDisconnect gid p.node p.name] := by
  unfold disconnect
  rw [hatt]
  cases hch : lookupChannel g.channels cn with
  | none => simp only [hch]
  | some c =>
    simp only [hch]
    by_cases hlen : (removePin c.pins p).length < 2
    · simp [hlen]
    · simp [hlen]

theorem disconnect_actions_free (gid : String) (g : GraphS) (p : PinId)
    (hatt : lookupAttach g.attach p = none) :
    (disconnect gid g p).2 = [] := by
  unfold disconnect
  rw [hatt]

theorem disconnect_destroys (gid : String) (g : GraphS) (p : PinId)
    (cn : String) (c : ChannelS)
    (hatt : lookupAttach g.attach p = some cn)
    (hch : lookupChannel g.channels cn = some c)
    (hlen : (removePin c.pins p).length < 2) :
    lookupChannel ((disconnect gid g p).1).channels cn = none ∧
      ∀ q ∈ removePin c.pins p,
        lookupAttach ((disconnect gid g p).1).attach q = none := by
  unfold disconnect
  rw [hatt]
  simp only [hch, if_pos hlen]
  refine ⟨lookupChannel_removeChannel_self g.channels cn, ?_⟩
  intro q hq
  rw [lookupAttach_removeAttach]
  by_cases hqp : q = p
  · simp [hqp]
  · rw [if_neg hqp]
    exact lookupAttach_removeAttachList_mem g.attach _ q hq

theorem disconnect_survives (gid : String) (g : GraphS) (p : PinId)
    (cn : String) (c : ChannelS)
    (hatt : lookupAttach g.attach p = some cn)
    (hch : lookupChannel g.channels cn = some c)
    (hlen : 2 ≤ (removePin c.pins p).length) :
    lookupChannel ((disconnect gid g p).1).channels cn =
      some { c with pins := removePin c.pins p } := by
  unfold disconnect
  rw [hatt]
  simp only [hch, if_neg (by omega : ¬(removePin c.pins p).length < 2)]
  have hname := lookupChannel_name_eq g.channels cn c hch
  have hgoal := lookupChannel_setChannel g.channels
    { c with pins := removePin c.pins p }
  simpa [hname] using hgoal

/-!
## Characterizations of the validator on pin targets
-/

theorem checkConnectionTo_free_pin (env : Env) (g : GraphS) (p q : PinId)
    (hfree : lookupAttach g.attach q = none) :
    checkConnectionTo env g p (Target.pin q) =
      if env.ty q ≠ env.ty p then
        some ("mismatching types [" ++ env.ty p ++ " != " ++ env.ty q ++ "]")
      else if env.input p == env.input q then
        some "both pins have the same direction"
      else if p.node = q.node then
        some "both pins are on the same goroutine"
      else none := by
  simp only [checkConnectionTo]
  by_cases hty : env.ty q ≠ env.ty p
  · rw [if_pos hty, if_pos hty]
  · rw [if_neg hty, if_neg hty]
    simp only [hfree]

theorem checkConnectionTo_attached_pin (env : Env) (g : GraphS) (p q : PinId)
    (cn : String) (c : ChannelS)
    (hatt : lookupAttach g.attach q = some cn)
    (hch : lookupChannel g.channels cn = some c) :
    checkConnectionTo env g p (Target.pin q) =
      if env.ty q ≠ env.ty p then
        some ("mismatching types [" ++ env.ty p ++ " != " ++ env.ty q ++ "]")
      else checkConnectionToChannel env p c := by
  simp only [checkConnectionTo]
  by_cases hty : env.ty q ≠ env.ty p
  · rw [if_pos hty, if_pos hty]
  · rw [if_neg hty, if_neg hty]
    simp only [hatt, hch]

theorem same_node_free_isSome (env : Env) (g : GraphS) (p q : PinId)
    (hnode : p.node = q.node) (hfree : lookupAttach g.attach q = none) :
    (checkConnectionTo env g p (Target.pin q)).isSome = true := by
  rw [checkConnectionTo_free_pin env g p q hfree]
  by_cases hty : env.ty q ≠ env.ty p
  · rw [if_pos hty]
    rfl
  · rw [if_neg hty]
    by_cases hdir : (env.input p == env.input q) = true
    · rw [if_pos hdir]
      rfl
    · rw [if_neg hdir, if_pos hnode]
      rfl

/-!
## Behaviour of dragStart
-/

theorem dragStart_fst (gid : String) (g : GraphS) (p : PinId)
    (cn : String) (c : ChannelS)
    (hatt : lookupAttach g.attach p = some cn)
    (hch : lookupChannel g.channels cn = some c) :
    (dragStart gid g p).1 = (disconnect gid g p).1 := by
  unfold dragStart
  rw [hatt]
  simp only [hch]
  by_cases hbig : (removePin c.pins p).length > 1
  · rw [if_pos hbig]
  · rw [if_neg hbig]
    cases removePin c.pins p with
    | nil => rfl
    | cons q rest => rfl

theorem dragStart_acts (gid : String) (g : GraphS) (p : PinId)
    (cn : String) (c : ChannelS)
    (hatt : lookupAttach g.attach p = some cn)
    (hch : lookupChannel g.channels cn = some c) :
    (dragStart gid g p).2.2 = (disconnect gid g p).2 := by
  unfold dragStart
  rw [hatt]
  simp only [hch]
  by_cases hbig : (removePin c.pins p).length > 1
  · rw [if_pos hbig]
  · rw [if_neg hbig]
    cases removePin c.pins p with
    | nil => rfl
    | cons q rest => rfl

theorem dragStart_handoff_big (gid : String) (g : GraphS) (p : PinId)
    (cn : String) (c : ChannelS)
    (hatt : lookupAttach g.attach p = some cn)
    (hch : lookupChannel g.channels cn = some c)
    (hbig : 1 < (removePin c.pins p).length) :
    (dragStart gid g p).2.1 = Handoff.toChannel cn := by
  unfold dragStart
  rw [hatt]
  simp only [hch]
  rw [if_pos hbig]

theorem dragStart_handoff_single (gid : String) (g : GraphS) (p : PinId)
    (cn : String) (c : ChannelS) (q : PinId)
    (hatt : lookupAttach g.attach p = some cn)
    (hch : lookupChannel g.channels cn = some c)
    (hone : removePin c.pins p = [q]) :
    (dragStart gid g p).2.1 = Handoff.toPin q := by
  unfold dragStart
  rw [hatt]
  simp only [hch, hone]
  rw [if_neg (by simp : ¬[q].length > 1)]

/-!
## Claim theorems
-/

/-- C7: for all pins `p`, `q` with differing data types, the validator
fails with the type-mismatch rejection (message containing "mismatching
types"), and this check is evaluated before the direction and same-task
checks: the equation holds whatever the pins' directions, nodes and
attachment state (the mismatch answer is produced before `q.ch` is even
inspected), and a type-mismatching channel target is rejected the same
way. -/
theorem checkConnectionTo_type_mismatch_priority (env : Env) (g : GraphS)
    (p q : PinId) (cn : String) (c : ChannelS) :
    (env.ty p ≠ env.ty q →
      checkConnectionTo env g p (Target.pin q) =
        some ("mismatching types [" ++ env.ty p ++ " != " ++ env.ty q ++ "]")) ∧
    (lookupChannel g.channels cn = some c → c.ty ≠ env.ty p →
      checkConnectionTo env g p (Target.chan cn) =
        some ("mismatching types [" ++ env.ty p ++ " != " ++ c.ty ++ "]")) := by
  constructor
  · intro hty
    simp only [checkConnectionTo]
    rw [if_pos (fun hc => hty hc.symm)]
  · intro hch hty
    simp only [checkConnectionTo, hch]
    unfold checkConnectionToChannel
    rw [if_pos hty]

/-- Witness for C7: an `int` output dragged onto a `string` pin and onto a
`bool` channel, both rejected with the mismatch message. -/
theorem checkConnectionTo_type_mismatch_priority_witness :
    checkConnectionTo envMixedTy gBoolChan pinGenA (Target.pin pinSumB) =
      some ("mismatching types [" ++ envMixedTy.ty pinGenA ++ " != " ++
        envMixedTy.ty pinSumB ++ "]") ∧
    checkConnectionTo envMixedTy gBoolChan pinGenA (Target.chan "c1") =
      some ("mismatching types [" ++ envMixedTy.ty pinGenA ++ " != " ++
        "bool" ++ "]") := by
  constructor
  · exact (checkConnectionTo_type_mismatch_priority envMixedTy gBoolChan
      pinGenA pinSumB "c1"
      { name := "c1", ty := "bool", pins := [], created := false }).1
      (by decide)
  · exact (checkConnectionTo_type_mismatch_priority envMixedTy gBoolChan
      pinGenA pinSumB "c1"
      { name := "c1", ty := "bool", pins := [], created := false }).2
      (by decide) (by decide)

/-- C8 counterexample: two free pins of equal type on the same node `N`
that are both inputs are rejected with the same-direction message, not
the same-task message: the direction check precedes the node check, so
"fails with a same-task rejection regardless of direction and type" is
false as stated. -/
theorem same_node_same_direction_counterexample :
    pinP.node = pinQ.node ∧
    checkConnectionTo envAllIn gEmpty pinP (Target.pin pinQ) =
      some "both pins have the same direction" ∧
    ("both pins have the same direction" : String) ≠
      "both pins are on the same goroutine" := by
  refine ⟨rfl, by decide, by decide⟩

/-- C8 amended: for free pins `p`, `q` on the same node the validator
always rejects; the rejection is the same-task one ("both pins are on the
same goroutine") exactly when the types match and the directions differ;
with matching types and equal directions the same-direction rejection
fires instead (and with differing types the mismatch rejection, per the
type-priority theorem of C7). -/
theorem checkConnectionTo_same_node_free_rejects (env : Env) (g : GraphS)
    (p q : PinId) (hnode : p.node = q.node)
    (hfree : lookupAttach g.attach q = none) :
    (checkConnectionTo env g p (Target.pin q)).isSome = true ∧
    (env.ty q = env.ty p → env.input p ≠ env.input q →
      checkConnectionTo env g p (Target.pin q) =
        some "both pins are on the same goroutine") ∧
    (env.ty q = env.ty p → env.input p = env.input q →
      checkConnectionTo env g p (Target.pin q) =
        some "both pins have the same direction") := by
  refine ⟨same_node_free_isSome env g p q hnode hfree, ?_, ?_⟩
  · intro hty hdir
    rw [checkConnectionTo_free_pin env g p q hfree,
      if_neg (by simp [hty]), if_neg (by simp [hdir]), if_pos hnode]
  · intro hty hdir
    rw [checkConnectionTo_free_pin env g p q hfree,
      if_neg (by simp [hty]), if_pos (by simp [hdir])]

/-- Witness for the amended C8: the same-task rejection for an output and
an input on node `N`, and the same-direction rejection for two inputs. -/
theorem checkConnectionTo_same_node_free_rejects_witness :
    (checkConnectionTo envQIn gEmpty pinP (Target.pin pinQ)).isSome = true ∧
    checkConnectionTo envQIn gEmpty pinP (Target.pin pinQ) =
      some "both pins are on the same goroutine" ∧
    checkConnectionTo envAllIn gEmpty pinP (Target.pin pinQ) =
      some "both pins have the same direction" := by
  have h1 := checkConnectionTo_same_node_free_rejects envQIn gEmpty pinP pinQ
    rfl (by decide)
  have h2 := checkConnectionTo_same_node_free_rejects envAllIn gEmpty pinP pinQ
    rfl (by decide)
  exact ⟨h1.1, h1.2.1 (by decide) (by decide), h2.2.2 (by decide) (by decide)⟩

/-- C3 counterexample: `p` (output) and `q` (input) both live on node `N`,
`q` is attached to the two-pin channel `ch0` (other endpoint on node `M`),
and the validator approves connecting `p` to `q`: re-running the
validation against the channel skips the same-node check entirely, so the
claimed blanket rejection of same-node pairs is false. -/
theorem same_node_via_channel_counterexample :
    pinP.node = pinQ.node ∧
    lookupAttach gQChan.attach pinQ = some "ch0" ∧
    checkConnectionTo envQIn gQChan pinP (Target.pin pinQ) = none := by
  refine ⟨rfl, by decide, by decide⟩

/-- C3 amended: the same-node restriction is enforced only against a free
target pin (where the validator always rejects); when the target pin is
attached, validation is re-run against its channel, which checks only the
type and the direction mix and can approve even though both pins share a
node. -/
theorem checkConnectionTo_same_node_only_direct (env : Env) (g : GraphS)
    (p q : PinId) (hnode : p.node = q.node) :
    (lookupAttach g.attach q = none →
      (checkConnectionTo env g p (Target.pin q)).isSome = true) ∧
    (∀ cn c, lookupAttach g.attach q = some cn →
      lookupChannel g.channels cn = some c →
      env.ty q = env.ty p →
      checkConnectionTo env g p (Target.pin q) =
        checkConnectionToChannel env p c) ∧
    (∀ cn c, lookupAttach g.attach q = some cn →
      lookupChannel g.channels cn = some c →
      env.ty q = env.ty p → c.ty = env.ty p →
      (c.pins.all fun r => env.input r == env.input p) = false →
      checkConnectionTo env g p (Target.pin q) = none) := by
  refine ⟨fun hfree => same_node_free_isSome env g p q hnode hfree, ?_, ?_⟩
  · intro cn c hatt hch hty
    rw [checkConnectionTo_attached_pin env g p q cn c hatt hch,
      if_neg (by simp [hty])]
  · intro cn c hatt hch hty hcty hmix
    rw [checkConnectionTo_attached_pin env g p q cn c hatt hch,
      if_neg (by simp [hty])]
    unfold checkConnectionToChannel
    rw [if_neg (by simp [hcty]), if_neg (by simp [hmix])]

/-- Witness for the amended C3: rejection for the free same-node pair,
approval for the channel-attached same-node pair. -/
theorem checkConnectionTo_same_node_only_direct_witness :
    (checkConnectionTo envQIn gEmpty pinP (Target.pin pinQ)).isSome = true ∧
    checkConnectionTo envQIn gQChan pinP (Target.pin pinQ) = none := by
  have h1 := checkConnectionTo_same_node_only_direct envQIn gEmpty pinP pinQ rfl
  have h2 := checkConnectionTo_same_node_only_direct envQIn gQChan pinP pinQ rfl
  refine ⟨h1.1 (by decide), ?_⟩
  exact h2.2.2 "ch0"
    { name := "ch0", ty := "int", pins := [pinQ, pinR], created := false }
    (by decide) (by decide) (by decide) (by decide) (by decide)

/-- C6: disconnecting an attached pin from its channel destroys the
channel (it leaves the graph's channel mapping) exactly when fewer than 2
pins remain attached, in which case every remaining formerly-attached
pin's attachment also becomes empty; with at least 2 remaining pins the
channel survives in the graph with just the one pin removed. -/
theorem disconnect_channel_lifecycle (gid : String) (g : GraphS) (p : PinId)
    (cn : String) (c : ChannelS)
    (hatt : lookupAttach g.attach p = some cn)
    (hch : lookupChannel g.channels cn = some c) :
    ((removePin c.pins p).length < 2 →
      lookupChannel ((disconnect gid g p).1).channels cn = none ∧
      ∀ q ∈ removePin c.pins p,
        lookupAttach ((disconnect gid g p).1).attach q = none) ∧
    (2 ≤ (removePin c.pins p).length →
      lookupChannel ((disconnect gid g p).1).channels cn =
        some { c with pins := removePin c.pins p }) :=
  ⟨fun hlen => disconnect_destroys gid g p cn c hatt hch hlen,
   fun hlen => disconnect_survives gid g p cn c hatt hch hlen⟩

/-- Witness for C6: disconnecting `p` from the two-pin channel destroys it
and empties `r`'s attachment; disconnecting `p` from the three-pin channel
leaves the channel with the two remaining pins. -/
theorem disconnect_channel_lifecycle_witness :
    lookupChannel ((disconnect "g" gPair pinP).1).channels "ch0" = none ∧
    lookupAttach ((disconnect "g" gPair pinP).1).attach pinR = none ∧
    lookupChannel ((disconnect "g" gTriple pinP).1).channels "ch0" =
      some { name := "ch0", ty := "int",
             pins := removePin [pinP, pinR, pinC] pinP, created := false } := by
  have h1 := (disconnect_channel_lifecycle "g" gPair pinP "ch0"
    { name := "ch0", ty := "int", pins := [pinP, pinR], created := false }
    (by decide) (by decide)).1 (by decide)
  have h2 := (disconnect_channel_lifecycle "g" gTriple pinP "ch0"
    { name := "ch0", ty := "int", pins := [pinP, pinR, pinC], created := false }
    (by decide) (by decide)).2 (by decide)
  exact ⟨h1.1, h1.2 pinR (by decide), h2⟩

/-- C5 counterexample: drag start on pin `p` of the three-pin channel
`ch0`. After the local detachment the channel retains the 2 pins `r`, `c`
and persists — the claim's hypothesis holds — but the drag is handed to
the channel's own drag handler (`ch.dragStart`), not to either remaining
endpoint pin, so "the other remaining endpoint pin becomes the new drag
origin" is false. -/
theorem dragStart_big_channel_counterexample :
    (dragStart "g" gTriple pinP).2.1 = Handoff.toChannel "ch0" ∧
    lookupChannel ((dragStart "g" gTriple pinP).1).channels "ch0" =
      some { name := "ch0", ty := "int", pins := [pinR, pinC],
             created := false } ∧
    Handoff.toChannel "ch0" ≠ Handoff.toPin pinR ∧
    Handoff.toChannel "ch0" ≠ Handoff.toPin pinC := by
  refine ⟨by decide, by decide, by decide, by decide⟩

/-- C5 amended: dragging an attached pin detaches it locally and issues
exactly the asynchronous disconnect-notification. When the channel
retains at least 2 pins it persists in the graph and the drag is handed
to the channel's own drag handler; when exactly one pin remains, the
channel is destroyed (by the detachment, which took it below 2 pins) and
that sole remaining endpoint pin becomes the new drag origin — the
"pulls the wire's free end" behaviour holds in the two-pin case, where
the channel does not persist. -/
theorem dragStart_attached_behaviour (gid : String) (g : GraphS) (p : PinId)
    (cn : String) (c : ChannelS)
    (hatt : lookupAttach g.attach p = some cn)
    (hch : lookupChannel g.channels cn = some c) :
    (dragStart gid g p).2.2 = [Action.remoteDisconnect gid p.node p.name] ∧
    lookupAttach ((dragStart gid g p).1).attach p = none ∧
    (2 ≤ (removePin c.pins p).length →
      lookupChannel ((dragStart gid g p).1).channels cn =
        some { c with pins := removePin c.pins p } ∧
      (dragStart gid g p).2.1 = Handoff.toChannel cn) ∧
    (∀ q, removePin c.pins p = [q] →
      lookupChannel ((dragStart gid g p).1).channels cn = none ∧
      (dragStart gid g p).2.1 = Handoff.toPin q) := by
  refine ⟨?_, ?_, ?_, ?_⟩
  · rw [dragStart_acts gid g p cn c hatt hch]
    exact disconnect_actions_attached gid g p cn hatt
  · rw [dragStart_fst gid g p cn c hatt hch]
    exact disconnect_detaches gid g p
  · intro hlen
    refine ⟨?_, dragStart_handoff_big gid g p cn c hatt hch (by omega)⟩
    rw [dragStart_fst gid g p cn c hatt hch]
    exact disconnect_survives gid g p cn c hatt hch hlen
  · intro q hone
    refine ⟨?_, dragStart_handoff_single gid g p cn c q hatt hch hone⟩
    rw [dragStart_fst gid g p cn c hatt hch]
    exact (disconnect_destroys gid g p cn c hatt hch (by simp [hone])).1

/-- Witness for the amended C5: the three-pin channel persists and hands
the drag to the channel handler; the two-pin channel is destroyed and
hands the drag to the other endpoint `r`. -/
theorem dragStart_attached_behaviour_witness :
    (dragStart "g" gTriple pinP).2.2 =
      [Action.remoteDisconnect "g" "N" "p"] ∧
    lookupAttach ((dragStart "g" gTriple pinP).1).attach pinP = none ∧
    (dragStart "g" gTriple pinP).2.1 = Handoff.toChannel "ch0" ∧
    (dragStart "g" gPair pinP).2.1 = Handoff.toPin pinR ∧
    lookupChannel ((dragStart "g" gPair pinP).1).channels "ch0" = none := by
  have h1 := dragStart_attached_behaviour "g" gTriple pinP "ch0"
    { name := "ch0", ty := "int", pins := [pinP, pinR, pinC], created := false }
    (by decide) (by decide)
  have h2 := dragStart_attached_behaviour "g" gPair pinP "ch0"
    { name := "ch0", ty := "int", pins := [pinP, pinR], created := false }
    (by decide) (by decide)
  exact ⟨h1.1, h1.2.1, (h1.2.2.1 (by decide)).2,
    (h2.2.2.2 pinR (by decide)).2, (h2.2.2.2 pinR (by decide)).1⟩

/-- C4 counterexample: pin `p` is attached to the live two-pin channel
`ch0` and the drag-move reports a nearest point at squared distance 200
(beyond the threshold 144). The invalid-snap branch runs, detaching `p`
via `Pin.disconnect` — which fires `go reallyDisconnect()`, an
asynchronous remote call. "No remote call of any kind is issued by this
branch" is therefore false. -/
theorem drag_invalid_branch_remote_call_counterexample :
    (200 : Rat) ≥ snapQuad ∧
    drag "g" "f" envQIn gPair pinP 0 0 200 (Target.chan "nothing") =
      ({ channels := [], attach := [] },
       [Action.clearError, Action.remoteDisconnect "g" "N" "p"]) ∧
    disconnectRequests
        (drag "g" "f" envQIn gPair pinP 0 0 200 (Target.chan "nothing")).2 =
      [Action.remoteDisconnect "g" "N" "p"] := by
  refine ⟨by decide, by decide, by decide⟩

/-- C4 amended: on a drag-move whose nearest point is the origin pin
itself or lies at squared distance at least the snap threshold 144, the
invalid-snap branch runs: the pin ends detached from any live channel, no
connect-request is issued, and the branch's only remote traffic is the
asynchronous disconnect-notification fired inside `Pin.disconnect`
exactly when the pin was attached (a free pin produces no remote call). -/
theorem drag_invalid_branch (gid fresh : String) (env : Env) (g : GraphS)
    (p : PinId) (x y d : Rat) (q : Target)
    (hcond : q = Target.pin p ∨ d ≥ snapQuad) :
    lookupAttach ((drag gid fresh env g p x y d q).1).attach p = none ∧
    connectRequests (drag gid fresh env g p x y d q).2 = [] ∧
    (lookupAttach g.attach p ≠ none →
      (drag gid fresh env g p x y d q).2 =
        [Action.clearError, Action.remoteDisconnect gid p.node p.name]) ∧
    (lookupAttach g.attach p = none →
      (drag gid fresh env g p x y d q).2 = [Action.clearError]) := by
  have hdrag : drag gid fresh env g p x y d q =
      ((noSnap gid g p).1, Action.clearError :: (noSnap gid g p).2) := by
    unfold drag
    rw [if_pos hcond]
  cases hatt : lookupAttach g.attach p with
  | none =>
    have hns : noSnap gid g p = (g, []) := by
      unfold noSnap
      rw [hatt]
    rw [hdrag, hns]
    exact ⟨hatt, rfl, fun hc => absurd rfl hc, fun _ => rfl⟩
  | some cn =>
    have hns : noSnap gid g p = disconnect gid g p := by
      unfold noSnap
      rw [hatt]
    have hacts := disconnect_actions_attached gid g p cn hatt
    rw [hdrag, hns]
    refine ⟨disconnect_detaches gid g p, ?_, ?_, ?_⟩
    · show connectRequests (Action.clearError :: (disconnect gid g p).2) = []
      rw [hacts]
      rfl
    · intro _
      show Action.clearError :: (disconnect gid g p).2 = _
      rw [hacts]
    · exact fun hc => Option.noConfusion hc

/-- Witness for the amended C4: the attached case (squared distance 200,
a disconnect-notification goes out) and the free case (nearest point is
the origin pin, no remote call at all). -/
theorem drag_invalid_branch_witness :
    lookupAttach
        ((drag "g" "f" envQIn gPair pinP 0 0 200
          (Target.chan "nothing")).1).attach pinP = none ∧
    connectRequests
        (drag "g" "f" envQIn gPair pinP 0 0 200 (Target.chan "nothing")).2 =
      [] ∧
    (drag "g" "f" envQIn gPair pinP 0 0 200 (Target.chan "nothing")).2 =
      [Action.clearError, Action.remoteDisconnect "g" "N" "p"] ∧
    (drag "g" "f" envQIn gEmpty pinP 3 4 0 (Target.pin pinP)).2 =
      [Action.clearError] := by
  have h1 := drag_invalid_branch "g" "f" envQIn gPair pinP 0 0 200
    (Target.chan "nothing") (Or.inr (by decide))
  have h2 := drag_invalid_branch "g" "f" envQIn gEmpty pinP 3 4 0
    (Target.pin pinP) (Or.inl rfl)
  exact ⟨h1.1, h1.2.1, h1.2.2.1 (by decide), h2.2.2.2 (by decide)⟩

/-- C2 counterexample: the spec §8 scenario. Output pin `A` on node `Gen`
was dragged onto input pin `B` on node `Sum`, producing the provisional
channel `ch0` joining both. Releasing the pointer runs `drop` on the
dragged pin `A`, and `reallyConnect` builds the request from `p` itself:
it carries ("g", "Gen", "A", "ch0") — the dragged pin's node and pin
names — not ("g", "Sum", "B", "ch0") as the claim states. -/
theorem drop_request_names_counterexample :
    drop "g" gCreated pinGenA =
      (gCreated,
       [Action.clearError, Action.remoteConnect "g" "Gen" "A" "ch0"]) ∧
    connectRequests (drop "g" gCreated pinGenA).2 ≠
      [Action.remoteConnect "g" "Sum" "B" "ch0"] := by
  refine ⟨by decide, by decide⟩

/-- C2 amended: releasing the pointer while the dragged pin is attached to
a newly created (`created`) channel issues exactly one asynchronous
connect-request, carrying the graph identifier, the channel name, and the
node and pin names of the dragged pin itself (in the §8 scenario:
("Gen", "A"), the drag origin, not the target pin). -/
theorem drop_created_channel_connect (gid : String) (g : GraphS) (p : PinId)
    (cn : String) (c : ChannelS)
    (hatt : lookupAttach g.attach p = some cn)
    (hch : lookupChannel g.channels cn = some c)
    (hcreated : c.created = true) :
    drop gid g p =
      (g, [Action.clearError, Action.remoteConnect gid p.node p.name cn]) ∧
    connectRequests (drop gid g p).2 =
      [Action.remoteConnect gid p.node p.name cn] := by
  have hdrop : drop gid g p =
      (g, [Action.clearError, Action.remoteConnect gid p.node p.name cn]) := by
    unfold drop
    rw [hatt]
    simp only [hch, hcreated, if_true]
  refine ⟨hdrop, ?_⟩
  rw [hdrop]
  rfl

/-- Witness for the amended C2: the §8 scenario state; the single request
carries the dragged pin's identifiers. -/
theorem drop_created_channel_connect_witness :
    drop "g" gCreated pinGenA =
      (gCreated,
       [Action.clearError, Action.remoteConnect "g" "Gen" "A" "ch0"]) ∧
    connectRequests (drop "g" gCreated pinGenA).2 =
      [Action.remoteConnect "g" "Gen" "A" "ch0"] :=
  drop_created_channel_connect "g" gCreated pinGenA "ch0"
    { name := "ch0", ty := "int", pins := [pinGenA, pinSumB], created := true }
    (by decide) (by decide) rfl

/-- C1 counterexample: the §8 scenario fails remotely with "boom" after a
drop whose position was (500, 500). The optimistic state is indeed kept
(first conjunct: the graph, with the channel and both attachments, is
returned untouched), and the error text contains the failure text — but
`reallyConnect` calls `setError(msg, 0, 0)`, so the label lands at the
fixed position (4, -36): its squared distance to the drop position
exceeds even the snap threshold 144 (the program's own notion of "near"),
refuting "anchored near the drop position of the failed interaction". The
drop coordinates do not reach `reallyConnect` at all. -/
theorem reallyConnect_failure_anchor_counterexample :
    reallyConnect "g" gCreated pinGenA (Except.error "boom") =
      (gCreated,
       [Action.remoteConnect "g" "Gen" "A" "ch0",
        Action.showError "Couldn't connect: boom" 0 0]) ∧
    (replayErr errLabel0
        (reallyConnect "g" gCreated pinGenA (Except.error "boom")).2) =
      { text := "Couldn't connect: boom", x := 4, y := -36,
        visible := true } ∧
    ((4 : Rat) - 500) * ((4 : Rat) - 500) +
        ((-36 : Rat) - 500) * ((-36 : Rat) - 500) > snapQuad := by
  refine ⟨by decide, ?_, by norm_num [snapQuad]⟩
  show replayErr errLabel0
      [Action.remoteConnect "g" "Gen" "A" "ch0",
       Action.showError "Couldn't connect: boom" 0 0] = _
  unfold replayErr
  simp only [List.foldl, applyErrAction]
  unfold setErrorLabel
  rw [if_neg (by decide : ("Couldn't connect: boom" : String) ≠ "")]
  norm_num [ErrLabel.mk.injEq]

/-- C1 amended: when the connect-request issued at drop fails remotely,
the local state is returned untouched (the optimistically created or
extended channel stays in the graph and the pin stays attached), and an
error message containing the failure text is shown — but it is anchored
at the fixed coordinates (0, 0) handed to `setError` (the label lands at
(4, -36)), independent of the drop position of the failed interaction. -/
theorem reallyConnect_failure_behaviour (gid : String) (g : GraphS)
    (p : PinId) (cn : String) (e : String) (l : ErrLabel)
    (hatt : lookupAttach g.attach p = some cn) :
    reallyConnect gid g p (Except.error e) =
      (g, [Action.remoteConnect gid p.node p.name cn,
           Action.showError ("Couldn't connect: " ++ e) 0 0]) ∧
    replayErr l (reallyConnect gid g p (Except.error e)).2 =
      { text := "Couldn't connect: " ++ e, x := 4, y := -36,
        visible := true } := by
  have hne : ("Couldn't connect: " ++ e) ≠ "" := by
    intro hc
    have hlen := congrArg String.length hc
    rw [String.length_append] at hlen
    have h18 : ("Couldn't connect: ").length = 18 := by decide
    have h0 : ("" : String).length = 0 := by decide
    omega
  have hmain : reallyConnect gid g p (Except.error e) =
      (g, [Action.remoteConnect gid p.node p.name cn,
           Action.showError ("Couldn't connect: " ++ e) 0 0]) := by
    unfold reallyConnect
    rw [hatt]
  refine ⟨hmain, ?_⟩
  rw [hmain]
  show replayErr l
      [Action.remoteConnect gid p.node p.name cn,
       Action.showError ("Couldn't connect: " ++ e) 0 0] = _
  unfold replayErr
  simp only [List.foldl, applyErrAction]
  unfold setErrorLabel
  rw [if_neg hne]
  norm_num

/-- Witness for the amended C1: the §8 scenario with failure "boom". -/
theorem reallyConnect_failure_behaviour_witness :
    reallyConnect "g" gCreated pinGenA (Except.error "boom") =
      (gCreated,
       [Action.remoteConnect "g" "Gen" "A" "ch0",
        Action.showError "Couldn't connect: boom" 0 0]) ∧
    replayErr errLabel0
        (reallyConnect "g" gCreated pinGenA (Except.error "boom")).2 =
      { text := "Couldn't connect: boom", x := 4, y := -36,
        visible := true } := by
  have h := reallyConnect_failure_behaviour "g" gCreated pinGenA "ch0" "boom"
    errLabel0 (by decide)
  exact h

/-- C9: for every part type, node-name list and collaborator outcome,
`CreateNode` invents a name that is not a key of the local node mapping
and has the claimed shape (the part type name itself, or the part type
followed by a space and the decimal numeral of some `i ≥ 2`); the local
node mapping is returned unchanged on every path (success, marshalling
failure, remote failure); and a successful result is exactly the node
with `Enabled = true`, `Wait = true`, `Multiplicity = 1` and position
(150, 150). -/
theorem createNode_fresh_name_no_mutation (nodes : List String)
    (partType : String) (marshal remote : Except String Unit) :
    (createNode nodes partType marshal remote).1 = nodes ∧
    inventName nodes partType ∉ nodes ∧
    (inventName nodes partType = partType ∨
      ∃ i, 2 ≤ i ∧
        inventName nodes partType = partType ++ " " ++ Nat.repr i) ∧
    (∀ n, (createNode nodes partType marshal remote).2 = Except.ok n →
      n = { name := inventName nodes partType, enabled := true, wait := true,
            multiplicity := 1, x := 150, y := 150, partType := partType }) := by
  refine ⟨?_, (inventName_spec nodes partType).1,
    (inventName_spec nodes partType).2, ?_⟩
  · unfold createNode
    cases marshal with
    | error e => rfl
    | ok u =>
      cases remote with
      | error e => rfl
      | ok u2 => rfl
  · intro n hn
    unfold createNode at hn
    cases marshal with
    | error e => exact Except.noConfusion hn
    | ok u =>
      cases remote with
      | error e => exact Except.noConfusion hn
      | ok u2 =>
        injection hn with h
        exact h.symm

/-- Witness for C9: part type "Code" against a mapping already holding
"Code" and "Code 2": the invented name "Code 3" is fresh, the mapping is
unchanged, and the successful result carries the default fields. -/
theorem createNode_fresh_name_no_mutation_witness :
    (createNode ["Code", "Code 2"] "Code" (Except.ok ()) (Except.ok ())).1 =
      ["Code", "Code 2"] ∧
    inventName ["Code", "Code 2"] "Code" ∉ ["Code", "Code 2"] ∧
    ({ name := "Code 3", enabled := true, wait := true, multiplicity := 1,
       x := 150, y := 150, partType := "Code" } : NodeModel) =
      { name := inventName ["Code", "Code 2"] "Code", enabled := true,
        wait := true, multiplicity := 1, x := 150, y := 150,
        partType := "Code" } := by
  have h := createNode_fresh_name_no_mutation ["Code", "Code 2"] "Code"
    (Except.ok ()) (Except.ok ())
  exact ⟨h.1, h.2.1, h.2.2.2
    { name := "Code 3", enabled := true, wait := true, multiplicity := 1,
      x := 150, y := 150, partType := "Code" } rfl⟩

/-- C10: `SaveProperties` is atomic on the local graph: a remote failure
returns the error and leaves all three local fields untouched; a remote
success overwrites `Name`, `PackagePath` and `IsCommand` with exactly the
values read from the panel inputs and returns no error. -/
theorem saveProperties_atomic (g : GraphProps) (nameInput pkgInput : String)
    (isCmdInput : Bool) (e : String) :
    saveProperties g nameInput pkgInput isCmdInput (Except.error e) =
      (g, some e) ∧
    saveProperties g nameInput pkgInput isCmdInput (Except.ok ()) =
      ({ name := nameInput, packagePath := pkgInput,
         isCommand := isCmdInput }, none) := by
  exact ⟨rfl, rfl⟩

end SzGo
